import Mathlib

/-!
Verification of the archive-extraction pipeline of `自动解压工具_GUI_v7.02.py`
(Auto Extractor v7.1).

The Python source is shallowly embedded: pure helpers become Lean functions
over `String`/`List Char`; filesystem state (directory listings, hint files)
is passed explicitly; subprocess execution is modelled by its observable
inputs (the stream of output lines, the launch outcome, the exit code) and,
for the concurrent reader/watchdog pair of `run_cmd`, by a labelled
transition system.

Python regular-expression searches are embedded as explicit backtracking
matchers over `List Char`, following Python `re` semantics: `re.search`
tries candidate positions left to right; alternation tries branches left to
right with backtracking; `*` is greedy with backtracking; `.` matches any
character except a newline; `\s` is the Unicode whitespace class.
`str.lower` is modelled on the ASCII range (all characters appearing in the
archives, markers and commands under verification are ASCII or CJK, which
Python's `lower` leaves unchanged).
-/

/-- Unicode whitespace characters matched by Python's `\s` (and stripped by
`str.strip()`). -/
def pyWhitespace : List Char :=
  [' ', '\t', '\n', '\x0b', '\x0c', '\r',
   '\x1c', '\x1d', '\x1e', '\x1f', '\x85', ' ', ' ',
   ' ', ' ', ' ', ' ', ' ', ' ', ' ',
   ' ', ' ', ' ', ' ',
   ' ', ' ', ' ', ' ', '　']

/-- Whether a character is Python whitespace. -/
def isPySpace (c : Char) : Bool := pyWhitespace.contains c

/-- Python `str.lower()` restricted to ASCII (identity on CJK, as in Python). -/
def lowerStr (s : String) : String := String.mk (s.toList.map Char.toLower)

/-- Python `str.endswith` / regex `suffix$`, character-exact. -/
def endsWithL (s : String) (suf : String) : Bool :=
  suf.toList.isSuffixOf s.toList

/-- Python `str.startswith`, character-exact. -/
def startsWithL (s : String) (pre : String) : Bool :=
  pre.toList.isPrefixOf s.toList

/-- Python `name[:-n]` for a string (drop the last `n` characters). -/
def strDropRight (s : String) (n : Nat) : String :=
  String.mk (s.toList.take (s.toList.length - n))

/-- Index of the last `.` in a name, as in Python `str.rfind('.')`. -/
def lastDotIdx (cs : List Char) : Option Nat :=
  match cs.reverse.findIdx? (fun c => c = '.') with
  | none => none
  | some j => some (cs.length - 1 - j)

/-- Python `pathlib.PurePath.suffix`: the final `.ext` of the name, empty if the
last dot is at position 0 (hidden file) or at the very end. -/
def pathSuffix (name : String) : String :=
  let cs := name.toList
  match lastDotIdx cs with
  | none => ""
  | some i => if 0 < i ∧ i < cs.length - 1 then String.mk (cs.drop i) else ""

/-- Python `pathlib.PurePath.stem`: the name with `pathSuffix` removed. -/
def pathStem (name : String) : String :=
  let cs := name.toList
  match lastDotIdx cs with
  | none => name
  | some i => if 0 < i ∧ i < cs.length - 1 then String.mk (cs.take i) else name

/-- Python `PurePath.with_suffix(t)` in the case where the current suffix is
nonempty: replace it by `t`. -/
def withSuffix (name t : String) : String := pathStem name ++ t

/-! ### Backtracking regex combinators (Python `re` semantics) -/

/-- Try a list of literal alternatives in order at the head of `cs`; on a
prefix match run the continuation `k` on the remainder, backtracking to the
next alternative if `k` fails.  This is Python alternation `(a|b|...)`. -/
def tryAlts (alts : List (List Char)) (k : List Char → Option (List Char))
    (cs : List Char) : Option (List Char) :=
  match alts with
  | [] => none
  | a :: rest =>
    match (if a.isPrefixOf cs then k (cs.drop a.length) else none) with
    | some r => some r
    | none => tryAlts rest k cs

/-- Case-insensitive variant of `tryAlts` (for patterns compiled with
`re.I`); alternatives are given lowercase and compared against the
ASCII-lowered input. -/
def tryAltsCI (alts : List (List Char)) (k : List Char → Option (List Char))
    (cs : List Char) : Option (List Char) :=
  match alts with
  | [] => none
  | a :: rest =>
    match (if a.isPrefixOf (cs.map Char.toLower) then k (cs.drop a.length) else none) with
    | some r => some r
    | none => tryAltsCI rest k cs

/-- Greedy `cls*` followed by continuation `k`, with backtracking: consume
as many `cls` characters as possible, giving characters back one at a time
when `k` fails. -/
def starThen (cls : Char → Bool) (k : List Char → Option (List Char)) :
    List Char → Option (List Char)
  | [] => k []
  | c :: rest =>
    if cls c then
      match starThen cls k rest with
      | some r => some r
      | none => k (c :: rest)
    else k (c :: rest)

/-- Embedding of `re.search`: try the matcher at every start position, leftmost first
(including the empty position at the end of the string). -/
def searchAt (m : List Char → Option (List Char)) :
    List Char → Option (List Char)
  | [] => m []
  | c :: rest =>
    match m (c :: rest) with
    | some r => some r
    | none => searchAt m rest

/-! ### The three password patterns of the source

`PWD_PREFIX_RE = (解压码|解压密码|密码)(统一为|为|是)?\s*[：:\s]\s*(.+)`
`PWD_BRACKET_RE = [\[(（【]\s*(?:pwd|password|pass|密码|解压码|提取码)[：:\s=]*([^\]\)）】\s]+)` (re.I)
`PWD_INLINE_RE = (解压码|解压密码|压缩密码|提取码|密码|pw|pass|password|key)[：:\s=]*([^\s\]\\/:<>\"\'`]+)` (re.I)

Each matcher returns the capture group that `_extract_pwd_from_text` reads
(`m.group(m.lastindex)`): group 3 for the prefix pattern, group 1 for the
bracket pattern, group 2 for the inline pattern. -/

/-- Character class `[：:\s]` of `PWD_PREFIX_RE`. -/
def sepClass (c : Char) : Bool := c = '：' ∨ c = ':' ∨ isPySpace c

/-- Trailing `(.+)`: greedily capture at least one non-newline character. -/
def dotPlusCapture (cs : List Char) : Option (List Char) :=
  let cap := cs.takeWhile (fun c => c ≠ '\n')
  if cap.isEmpty then none else some cap

/-- Matcher for `PWD_PREFIX_RE` anchored at the current position; returns group 3. -/
def prefixReAt (cs : List Char) : Option (List Char) :=
  tryAlts ["解压码".toList, "解压密码".toList, "密码".toList] (fun cs1 =>
    tryAlts ["统一为".toList, "为".toList, "是".toList, []] (fun cs2 =>
      starThen isPySpace (fun cs3 =>
        match cs3 with
        | [] => none
        | c :: cs4 =>
          if sepClass c then starThen isPySpace dotPlusCapture cs4 else none) cs2) cs1) cs

/-- Character class `[：:\s=]` shared by the bracket and inline patterns. -/
def kvSepClass (c : Char) : Bool := c = '：' ∨ c = ':' ∨ isPySpace c ∨ c = '='

/-- Opening brackets `[\[(（【]` of `PWD_BRACKET_RE`. -/
def openBracket (c : Char) : Bool := c ∈ ['[', '(', '（', '【']

/-- Capture class `[^\]\)）】\s]` of `PWD_BRACKET_RE`. -/
def bracketCapClass (c : Char) : Bool :=
  ¬(c = ']' ∨ c = ')' ∨ c = '）' ∨ c = '】' ∨ isPySpace c)

/-- Matcher for `PWD_BRACKET_RE` anchored at the current position; returns group 1. -/
def bracketReAt : List Char → Option (List Char)
  | [] => none
  | c :: rest =>
    if openBracket c then
      starThen isPySpace (fun cs1 =>
        tryAltsCI ["pwd".toList, "password".toList, "pass".toList,
                   "密码".toList, "解压码".toList, "提取码".toList] (fun cs2 =>
          starThen kvSepClass (fun cs3 =>
            let cap := cs3.takeWhile bracketCapClass
            if cap.isEmpty then none else some cap) cs2) cs1) rest
    else none

/-- Capture class of `PWD_INLINE_RE`: not whitespace and none of
`] \ / : < > " ' `` `. -/
def inlineCapClass (c : Char) : Bool :=
  ¬(isPySpace c ∨ c ∈ [']', '\\', '/', ':', '<', '>', '"', '\x27', '\x60'])

/-- Matcher for `PWD_INLINE_RE` anchored at the current position; returns group 2. -/
def inlineReAt (cs : List Char) : Option (List Char) :=
  tryAltsCI ["解压码".toList, "解压密码".toList, "压缩密码".toList, "提取码".toList,
             "密码".toList, "pw".toList, "pass".toList, "password".toList,
             "key".toList] (fun cs1 =>
    starThen kvSepClass (fun cs2 =>
      let cap := cs2.takeWhile inlineCapClass
      if cap.isEmpty then none else some cap) cs1) cs

/-- Strip characters satisfying `cls` from both ends (Python `str.strip`). -/
def stripWhile (cls : Char → Bool) (cs : List Char) : List Char :=
  ((cs.dropWhile cls).reverse.dropWhile cls).reverse

/-- The punctuation set of `_clean_pwd`: `'，。,:：;；)]}】）'`. -/
def cleanPwdChars : List Char :=
  ['，', '。', ',', ':', '：', ';', '；', ')', ']', '\x7d', '】', '）']

/-- Embedding of `_clean_pwd`: strip whitespace, then the punctuation set, from both ends. -/
def clean_pwd (cs : List Char) : List Char :=
  stripWhile (fun c => cleanPwdChars.contains c) (stripWhile isPySpace cs)

/-- One pattern attempt of `_extract_pwd_from_text`: search, strip the
captured value, and accept it only if nonempty (otherwise the source falls
through to the next pattern). -/
def tryPattern (m : List Char → Option (List Char)) (text : List Char) :
    Option (List Char) :=
  match searchAt m text with
  | some v =>
    let val := stripWhile isPySpace v
    if val.isEmpty then none else some (clean_pwd val)
  | none => none

/-- Embedding of `_extract_pwd_from_text`: try the prefix, bracket and inline patterns in
that order; return the cleaned capture of the first pattern whose stripped
capture is nonempty. -/
def extract_pwd_from_text (text : String) : Option String :=
  match tryPattern prefixReAt text.toList with
  | some v => some (String.mk v)
  | none =>
    match tryPattern bracketReAt text.toList with
    | some v => some (String.mk v)
    | none =>
      match tryPattern inlineReAt text.toList with
      | some v => some (String.mk v)
      | none => none

example : extract_pwd_from_text "教程【解压密码：abc123】.rar" = some "abc123】.rar" := by decide
example : extract_pwd_from_text "教程【解压密码：abc123】" = some "abc123" := by decide
example : extract_pwd_from_text "提取码: xy9Z" = some "xy9Z" := by decide
example : extract_pwd_from_text "密码为x" = some "为x" := by decide
example : extract_pwd_from_text "密码 abc" = some "abc" := by decide

/-! ### Password inference (`infer_password`)

The filesystem state visible to `infer_password` is the archive's file
name, its parent directory's name, the parent directory's resolved path
(the cache key `str(arc.parent.resolve())`), and the parent directory's
entries in `iterdir` order. -/

/-- Python truthiness of an `Optional[str]`: not `None` and nonempty. -/
def pyTruthy : Option String → Bool
  | none => false
  | some s => ¬(s = "")

/-- A sibling directory entry as seen by the hint-file scan. -/
structure HintFile where
  name : String
  isFile : Bool
  size : Nat
  content : String
deriving DecidableEq

/-- The filesystem context of one archive. -/
structure ArcCtx where
  arcName : String
  parentName : String
  parentKey : String
  siblings : List HintFile
deriving DecidableEq

/-- The per-directory password cache (the mutable `cache` dict), as an
association list with the most recent insertion in front. -/
def PwdCache : Type := List (String × Option String)

/-- Dictionary lookup `dir_key in cache` / `cache[dir_key]`. -/
def cacheFind : List (String × Option String) → String → Option (Option String)
  | [], _ => none
  | (k, v) :: rest, key => if k = key then some v else cacheFind rest key

/-- The source's `PWD_HINT_EXTS` set: `.txt`, `.md`, `.nfo`, `.url`, `.ini`. -/
def PWD_HINT_EXTS : List String := [".txt", ".md", ".nfo", ".url", ".ini"]

/-- The hint-file loop of `infer_password`: skip non-files, unknown
suffixes and files over 64 KiB; read at most 4000 characters of the rest
and return the first truthy extracted password (with how many hint files
were read). -/
def scanHints : List HintFile → Option String × Nat
  | [] => (none, 0)
  | f :: rest =>
    if ¬f.isFile then scanHints rest
    else if ¬(PWD_HINT_EXTS.contains (lowerStr (pathSuffix f.name))) then scanHints rest
    else if 64 * 1024 < f.size then scanHints rest
    else
      let pwd := extract_pwd_from_text (String.mk (f.content.toList.take 4000))
      if pyTruthy pwd then (pwd, 1)
      else
        let rn := scanHints rest
        (rn.1, rn.2 + 1)

/-- Embedding of `infer_password`: filename, then extension-stripped stem, then parent
directory name, then cached-or-scanned sibling hint files.  Returns the
result, the updated cache, and the number of hint files read. -/
def infer_password (a : ArcCtx) (cache : List (String × Option String)) :
    Option String × List (String × Option String) × Nat :=
  let s1 := extract_pwd_from_text a.arcName
  if pyTruthy s1 then (s1, cache, 0)
  else
    let s1b := extract_pwd_from_text (pathStem a.arcName)
    if pyTruthy s1b then (s1b, cache, 0)
    else
      let s2 := extract_pwd_from_text a.parentName
      if pyTruthy s2 then (s2, cache, 0)
      else
        match cacheFind cache a.parentKey with
        | some v => (v, cache, 0)
        | none =>
          let rn := scanHints a.siblings
          (rn.1, (a.parentKey, rn.1) :: cache, rn.2)

/-! ### Signature & layout detection -/

/-- The source's `KNOWN_EXTS` set: `.zip`, `.7z`, `.rar`, `.001`, `.z01`. -/
def KNOWN_EXTS : List String := [".zip", ".7z", ".rar", ".001", ".z01"]

/-- Python's `sub in s`: `pat` occurs as a contiguous sublist of `l`. -/
def isInfixL (pat : List Char) : List Char → Bool
  | [] => pat.isPrefixOf []
  | c :: rest => pat.isPrefixOf (c :: rest) ∨ isInfixL pat rest

/-- Characters kept by `re.sub(r'[^0-9a-z]', '', ext)`. -/
def isLowerAlnum (c : Char) : Bool :=
  ('0' ≤ c ∧ c ≤ '9') ∨ ('a' ≤ c ∧ c ≤ 'z')

/-- Embedding of `normalize_extension`: if the (lowered) suffix is not a known archive
extension, strip non-alphanumerics from it and map suffixes containing
`rar`/`7z`/`zip` to the canonical extension (the on-disk rename is modelled
as always succeeding). -/
def normalize_extension (name : String) : String :=
  if KNOWN_EXTS.contains (lowerStr (pathSuffix name)) then name
  else
    let ext := lowerStr (pathSuffix name)
    if ext = "" then name
    else
      let cleaned := ext.toList.filter isLowerAlnum
      if isInfixL "rar".toList cleaned then withSuffix name ".rar"
      else if isInfixL "7z".toList cleaned then withSuffix name ".7z"
      else if isInfixL "zip".toList cleaned then withSuffix name ".zip"
      else name

/-- The source's `re.search` of the first-part pattern `\.part0*1\.rar$`: the name ends with `.part`,
zero or more `0`s, then `1.rar` (this subsumes the source's second
alternative `\.part1\.rar$`). -/
def part01RarEnd (low : String) : Bool :=
  let r := low.toList.reverse
  if "rar.1".toList.isPrefixOf r then
    "trap.".toList.isPrefixOf ((r.drop 5).dropWhile (fun c => c = '0'))
  else false

/-- The source's `re.search` of the any-part pattern `\.part\d+\.rar$`: the name ends with `.part`, one
or more digits, then `.rar`. -/
def partDigitsRarEnd (low : String) : Bool :=
  let r := low.toList.reverse
  if "rar.".toList.isPrefixOf r then
    let r2 := r.drop 4
    ¬(r2.takeWhile Char.isDigit).isEmpty ∧
      "trap.".toList.isPrefixOf (r2.dropWhile Char.isDigit)
  else false

/-- The source's `re.search` of the volume pattern (dot, `z`, two digits, end). -/
def zTwoDigitsEnd (low : String) : Bool :=
  match low.toList.reverse with
  | b :: a :: z :: d :: _ => b.isDigit ∧ a.isDigit ∧ z = 'z' ∧ d = '.'
  | _ => false

/-- Embedding of `is_multipart_first`: `(isMultipart, isFirst)` per the source's ordered
pattern rules over the lowercased name. -/
def is_multipart_first (name : String) : Bool × Bool :=
  let n := lowerStr name
  if part01RarEnd n then (true, true)
  else if partDigitsRarEnd n then (true, false)
  else if endsWithL n ".7z.001" ∨ endsWithL n ".zip.001" then (true, true)
  else if endsWithL n ".001" then (true, true)
  else if endsWithL n ".z01" then (true, true)
  else if zTwoDigitsEnd n then (true, false)
  else (false, false)

/-- The archive-name filter of `gather_archives` (the `any([...])` test on
the lowercased, normalized name). -/
def archiveNameFilter (low : String) : Bool :=
  endsWithL low ".zip" ∨ endsWithL low ".7z" ∨ endsWithL low ".rar" ∨
    endsWithL low ".001" ∨ endsWithL low ".z01" ∨ partDigitsRarEnd low

/-- Embedding of `gather_archives`: the walker's output is a list of per-directory file
listings in traversal order; every file is extension-normalized, kept if it
passes the archive-name filter, and dropped if it is a non-first multipart
fragment. -/
def gather_archives (walker : List (List String)) : List String :=
  walker.flatMap (fun files =>
    files.filterMap (fun f =>
      let p := normalize_extension f
      let low := lowerStr p
      if archiveNameFilter low then
        let mi := is_multipart_first p
        if mi.1 ∧ ¬mi.2 then none else some p
      else none))

example :
    gather_archives [["a.rar", "a.part1.rar", "a.part2.rar", "b.7z.001", "b.7z.002"]] =
      ["a.rar", "a.part1.rar", "b.7z.001"] := by decide

/-! ### Engine command builders -/

/-- Embedding of `overwrite_flag`: the source's policy-to-flag dict lookup;
`none` models the `KeyError` raised on any other key. -/
def overwrite_flag : String → Option String
  | "skip" => some "-aos"
  | "rename" => some "-aou"
  | "overwrite" => some "-aoa"
  | _ => none

/-- Embedding of `bandizip_cmd`: `[bz, 'x', '-cp:65001', flag, '-o:<outdir>']`, with
`'-p:<password>'` inserted at index 2 when the password is truthy, then the
archive appended. -/
def bandizip_cmd (bz archive outdir : String) (password : Option String)
    (policy : String) : Option (List String) :=
  (overwrite_flag policy).map (fun fl =>
    let cmd := [bz, "x", "-cp:65001", fl, "-o:" ++ outdir]
    let cmd2 :=
      match password with
      | some p => if p = "" then cmd else cmd.take 2 ++ ("-p:" ++ p) :: cmd.drop 2
      | none => cmd
    cmd2 ++ [archive])

/-- Embedding of `sevenzip_cmd`: `[sz, 'x', '-o<outdir>', flag, '-p<pwd>', '-y',
archive]` with the empty password substituted for `None`. -/
def sevenzip_cmd (sz archive outdir : String) (password : Option String)
    (policy : String) : Option (List String) :=
  (overwrite_flag policy).map (fun fl =>
    [sz, "x", "-o" ++ outdir, fl, "-p" ++ password.getD "", "-y", archive])

/-- Modelled from the spec's engine invocation contract: Engine A extract is
`<exe> x -cp:65001 <overwrite-flag> -o:<outdir> [-p:<password>] <archive>`,
with the optional password flag placed between the output flag and the
archive. -/
def specEngineACmd (exe archive outdir : String) (password : Option String)
    (policy : String) : Option (List String) :=
  (overwrite_flag policy).map (fun fl =>
    [exe, "x", "-cp:65001", fl, "-o:" ++ outdir] ++
      (match password with
       | some p => if p = "" then [] else ["-p:" ++ p]
       | none => []) ++ [archive])

/-- Modelled from the spec's engine invocation contract: Engine B extract is
`<exe> x -o<outdir> <overwrite-flag> -p<password-or-empty> -y <archive>`. -/
def specEngineBCmd (exe archive outdir : String) (password : Option String)
    (policy : String) : Option (List String) :=
  (overwrite_flag policy).map (fun fl =>
    [exe, "x", "-o" ++ outdir, fl, "-p" ++ password.getD "", "-y", archive])

/-! ### Multipart families (`get_all_multipart_siblings`) -/

/-- The source's `re.match` of the three-digit volume pattern: the name ends in a dot followed by three
digits and contains no newline before them (`.*` cannot cross a newline). -/
def dot3suffix (s : String) : Bool :=
  match s.toList.reverse with
  | c :: b :: a :: d :: rest =>
    c.isDigit ∧ b.isDigit ∧ a.isDigit ∧ d = '.' ∧ rest.all (fun x => x ≠ '\n')
  | _ => false

/-- Whether a tail is exactly `.part` + `0`* + `1.rar`, compared
case-insensitively (the remainder matched by `\.part0*1\.rar$` after the
lazy group). -/
def isPart01RarExact (cs : List Char) : Bool :=
  let l := cs.map Char.toLower
  if ".part".toList.isPrefixOf l then
    (l.drop 5).dropWhile (fun c => c = '0') = "1.rar".toList
  else false

/-- The source's `re.match` of the lazy first-part pattern (and its `part1`
variant, which it subsumes): the lazy group takes the shortest nonempty
newline-free prefix whose remainder is exactly `.part0*1.rar`. -/
def partFirstBaseAux (acc : List Char) : List Char → Option (List Char)
  | [] => none
  | c :: rest =>
    if c = '\n' then none
    else if isPart01RarExact rest then some (acc ++ [c])
    else partFirstBaseAux (acc ++ [c]) rest

/-- Group 1 of the first-part pattern, when the whole name matches. -/
def partFirstBase (name : String) : Option String :=
  (partFirstBaseAux [] name.toList).map String.mk

/-- Embedding of `parent.glob(base + '.part*.rar')` for a literal `base`: the candidate
starts with `base + '.part'`, ends with `'.rar'`, and is long enough for
the two literal pieces not to overlap. -/
def globPartMatch (base p : String) : Bool :=
  startsWithL p (base ++ ".part") ∧ endsWithL p ".rar" ∧
    (base ++ ".part").toList.length + 4 ≤ p.toList.length

/-- The sibling scan of `get_all_multipart_siblings` before the first part
itself is appended: `.7z.001`/`.zip.001` names glob `stem.*` filtered by
the three-digit regex; `.z01` names glob `base + 'z*'` (note: any name
starting with `base + 'z'`, not only two-digit volumes); `.partN.rar`
first parts glob `base.part*.rar`; anything else has no pattern. -/
def multipartSiblingsRaw (dirFiles : List String) (name : String) : List String :=
  let low := lowerStr name
  if endsWithL low ".7z.001" ∨ endsWithL low ".zip.001" then
    let stem := strDropRight name 4
    dirFiles.filter (fun p => startsWithL p (stem ++ ".") ∧ dot3suffix (lowerStr p))
  else if endsWithL low ".z01" then
    let base := strDropRight name 3
    dirFiles.filter (fun p => startsWithL p (base ++ "z"))
  else
    match partFirstBase name with
    | some base => dirFiles.filter (fun p => globPartMatch base p)
    | none => []

/-- Embedding of `get_all_multipart_siblings`: the pattern-matched siblings, with the
first part appended when not already present. -/
def get_all_multipart_siblings (dirFiles : List String) (name : String) :
    List String :=
  let sibs := multipartSiblingsRaw dirFiles name
  if name ∈ sibs then sibs else sibs ++ [name]

/-- Modelled from the spec: the multipart family of a first part
`name.z01` is `name.z\d\d` — the same length, the same `base + 'z'` stem,
and two digits. -/
def specZddFamilyMatch (first x : String) : Bool :=
  let base := strDropRight first 3
  startsWithL x (base ++ "z") ∧ x.toList.length = first.toList.length ∧
    (x.toList.drop (base.toList.length + 1)).all Char.isDigit

example :
    get_all_multipart_siblings ["name.z01", "name.zip"] "name.z01" =
      ["name.z01", "name.zip"] := by decide
example : specZddFamilyMatch "name.z01" "name.zip" = false := by decide
example : specZddFamilyMatch "name.z01" "name.z02" = true := by decide
example :
    get_all_multipart_siblings ["b.7z.001", "b.7z.002", "b.7z.tmp"] "b.7z.001" =
      ["b.7z.001", "b.7z.002"] := by decide
example :
    get_all_multipart_siblings ["a.part1.rar", "a.part2.rar", "a.rar"] "a.part1.rar" =
      ["a.part1.rar", "a.part2.rar"] := by decide
example : get_all_multipart_siblings ["x.rar"] "x.rar" = ["x.rar"] := by decide
example :
    bandizip_cmd "bz" "a.rar" "OUT" (some "pw") "skip" =
      some ["bz", "x", "-p:pw", "-cp:65001", "-aos", "-o:OUT", "a.rar"] := by decide
example :
    sevenzip_cmd "7z" "a.rar" "OUT" none "rename" =
      some ["7z", "x", "-oOUT", "-aou", "-p", "-y", "a.rar"] := by decide

/-! ### Process execution monitor (`run_cmd`)

The watchdog thread (`run_cmd.monitor`) is embedded as a pure tick
function: one loop iteration observes the current time and, when a monitor
directory is configured, the sampled recursive directory size.  Log lines
are abstracted to events carrying their semantic content (the rendering of
the directory size through `human()` involves float formatting and is
irrelevant to every claim). -/

/-- A log event emitted by the watchdog. -/
inductive MonEvent
  | sizeReport (sz : Int)
  | heartbeat (quiet : Nat) (phase : String)
deriving DecidableEq

/-- The watchdog's loop state: the last sampled directory size (`last_sz`,
initially `-1`) and the shared `last_activity` timestamp. -/
structure MonSt where
  lastSz : Int
  lastActivity : Nat
deriving DecidableEq

/-- One iteration of the watchdog loop body at time `now`: report a changed
directory size (resetting the activity timestamp), then emit a heartbeat if
at least `quiet` seconds passed since the last activity (resetting the
activity timestamp). -/
def monitorTickFun (quiet : Nat) (phase : String) (sz? : Option Int)
    (now : Nat) (st : MonSt) : MonSt × List MonEvent :=
  let r1 :=
    match sz? with
    | some sz =>
      if sz ≠ st.lastSz then (MonSt.mk sz now, [MonEvent.sizeReport sz])
      else (st, [])
    | none => (st, [])
  if r1.1.lastActivity + quiet ≤ now then
    (MonSt.mk r1.1.lastSz now, r1.2 ++ [MonEvent.heartbeat quiet phase])
  else r1

/-- The watchdog run over a finite list of poll samples `(now, dirSize)`. -/
def monRun (quiet : Nat) (phase : String) : MonSt → List (Nat × Option Int) → List MonEvent
  | _, [] => []
  | st, (t, sz) :: ts =>
    (monitorTickFun quiet phase sz t st).2 ++
      monRun quiet phase (monitorTickFun quiet phase sz t st).1 ts

/-- Poll times `t0+2, t0+4, ..., t0+2n`: the watchdog sleeps 2 seconds at
the end of each iteration. -/
def tickGrid (t0 : Nat) : Nat → List Nat
  | 0 => []
  | n + 1 => (t0 + 2) :: tickGrid (t0 + 2) n

/-- Poll samples for a run with no monitor directory. -/
def quietTicks (t0 n : Nat) : List (Nat × Option Int) :=
  (tickGrid t0 n).map (fun t => (t, none))

/-! #### `run_cmd` as a function of the launch outcome

The reader loop samples the cancellation flag once per iteration, before
each (blocking) `readline`; the flag is therefore a function of the
iteration index. -/

/-- How launching the child process went: started with a given output-line
stream and final exit code, `FileNotFoundError`, or some other exception. -/
inductive LaunchResult
  | ok (lines : List String) (exitCode : Int)
  | fileNotFound
  | otherError (msg : String)

/-- The reader loop of `run_cmd`: check the stop flag, then read a line
(logging it) or hit end-of-file and return the child's exit code.  Returns
the result code and the logged lines. -/
def runLoop (flag : Nat → Bool) : Nat → List String → Int → Int × List String
  | i, [], exitCode => if flag i then (-1, []) else (exitCode, [])
  | i, l :: rest, exitCode =>
    if flag i then (-1, [])
    else
      let r := runLoop flag (i + 1) rest exitCode
      (r.1, l :: r.2)

/-- Embedding of `run_cmd`: the result code and log: `9001` on `FileNotFoundError`, `9002`
(plus a logged message) on any other exception, otherwise the reader loop's
outcome. -/
def runCmd (flag : Nat → Bool) : LaunchResult → Int × List String
  | .ok lines exitCode => runLoop flag 0 lines exitCode
  | .fileNotFound => (9001, [])
  | .otherError msg => (9002, ["!! 执行出错: " ++ msg])

/-! #### The reader/watchdog pair as a labelled transition system

For the cancellation claims the two threads of `run_cmd` are modelled as a
small-step system.  The reader is either at the top of its loop (`atHead`,
about to check `stop_flag`) or blocked inside `readline` (`inRead`); the
watchdog polls while `mon_stop` is unset and the child runs.  `pending`
holds the child's not-yet-read output; a child that produces no output has
`pending = []`, and a blocked reader then has no transition until the
child exits — exactly the blocking `readline`. -/

/-- The reader's program counter. -/
inductive RPc
  | atHead
  | inRead
deriving DecidableEq

/-- The joint state of one `run_cmd` invocation. -/
structure RState where
  flag : Bool
  pending : List String
  childRunning : Bool
  childExit : Int
  monStop : Bool
  terminated : Bool
  result : Option Int
  lines : List String
  events : List MonEvent
  lastSz : Int
  lastActivity : Nat
  now : Nat
  pc : RPc
deriving DecidableEq

/-- Transition labels: the environment setting the flag, the reader's four
actions, a watchdog poll (with its directory-size sample), and the child
exiting. -/
inductive RLabel
  | setFlag
  | cancelCheck
  | beginRead
  | readLine
  | readEof
  | monTick (sz : Option Int)
  | childExits
deriving DecidableEq

/-- Small-step transitions of `run_cmd` for a fixed `quiet_limit` and
`phase_name`.  `cancelCheck` is the only transition that terminates the
child and the only one that produces the cancelled result `-1`; it is a
reader transition, available only at the top of the reader loop.  The
watchdog transition applies `monitorTickFun` and advances time by the poll
interval; it does not read the cancellation flag. -/
inductive Step (quiet : Nat) (phase : String) : RLabel → RState → RState → Prop
  | setFlag (s : RState) :
      Step quiet phase .setFlag s { s with flag := true }
  | cancelCheck (s : RState) (h1 : s.pc = .atHead) (h2 : s.result = none)
      (h3 : s.flag = true) :
      Step quiet phase .cancelCheck s
        { s with terminated := true, monStop := true, result := some (-1) }
  | beginRead (s : RState) (h1 : s.pc = .atHead) (h2 : s.result = none)
      (h3 : s.flag = false) :
      Step quiet phase .beginRead s { s with pc := .inRead }
  | readLine (s : RState) (l : String) (rest : List String)
      (h1 : s.pc = .inRead) (h2 : s.pending = l :: rest) :
      Step quiet phase .readLine s
        { s with pending := rest, lines := s.lines ++ [l],
                 lastActivity := s.now, pc := .atHead }
  | readEof (s : RState) (h1 : s.pc = .inRead) (h2 : s.pending = [])
      (h3 : s.childRunning = false) (h4 : s.result = none) :
      Step quiet phase .readEof s
        { s with result := some s.childExit, monStop := true, pc := .atHead }
  | monTick (s : RState) (sz : Option Int) (h1 : s.monStop = false)
      (h2 : s.childRunning = true) :
      Step quiet phase (.monTick sz) s
        { s with
            lastSz := (monitorTickFun quiet phase sz (s.now + 2)
              (MonSt.mk s.lastSz s.lastActivity)).1.lastSz,
            lastActivity := (monitorTickFun quiet phase sz (s.now + 2)
              (MonSt.mk s.lastSz s.lastActivity)).1.lastActivity,
            events := s.events ++ (monitorTickFun quiet phase sz (s.now + 2)
              (MonSt.mk s.lastSz s.lastActivity)).2,
            now := s.now + 2 }
  | childExits (s : RState) (h : s.childRunning = true) :
      Step quiet phase .childExits s { s with childRunning := false }

/-- Reachability in the transition system. -/
def Steps (quiet : Nat) (phase : String) (a b : RState) : Prop :=
  Relation.ReflTransGen (fun x y => ∃ l, Step quiet phase l x y) a b

/-- Labels belonging to the reader thread. -/
def readerLabel : RLabel → Bool
  | .cancelCheck => true
  | .beginRead => true
  | .readLine => true
  | .readEof => true
  | _ => false

/-! ### Pretest logic of the orchestrator -/

/-- Embedding of `_test_archive`: classification of the engine's result code: `exit 0`
is a pass, the distinguished results `-1`/`9001`/`9002` are inconclusive
(`None`), anything else is a conclusive failure. -/
def testResult (rc : Int) : Option Bool :=
  if rc = 0 then some true
  else if rc = -1 ∨ rc = 9001 ∨ rc = 9002 then none
  else some false

/-- The pretest gate of `_handle_one_archive` (lines 801-809): with the
primary and (if reached) secondary test result codes, decide whether the
orchestrator proceeds to the extract phase.  The archive is skipped only
when the primary test conclusively fails, cross-fallback with a secondary
engine is available, and the secondary test also conclusively fails. -/
def pretestProceeds (crossTry hasSecond : Bool) (rc1 rc2 : Int) : Bool :=
  if testResult rc1 = some false ∧ crossTry ∧ hasSecond then
    ¬(testResult rc2 = some false)
  else true

/-- A `run_cmd` invocation of a silent child (`pending = []`), reader
blocked in `readline`, before cancellation is requested. -/
def c1s0 : RState :=
  { flag := false, pending := [], childRunning := true, childExit := 0,
    monStop := false, terminated := false, result := none, lines := [],
    events := [], lastSz := -1, lastActivity := 0, now := 0, pc := .inRead }

/-- The same run after the user sets the cancellation flag. -/
def c1s1 : RState := { c1s0 with flag := true }

/-- One watchdog poll after cancellation was requested. -/
def c1s2 : RState := { c1s1 with now := 2 }

/-- Two watchdog polls after cancellation was requested. -/
def c1s3 : RState := { c1s2 with now := 4 }

/-- A reader at the top of its loop with the cancellation flag set. -/
def c1w0 : RState :=
  { flag := true, pending := [], childRunning := true, childExit := 0,
    monStop := false, terminated := false, result := none, lines := [],
    events := [], lastSz := -1, lastActivity := 0, now := 0, pc := .atHead }

/-- The state after the reader honors the cancellation request. -/
def c1w1 : RState := { c1w0 with terminated := true, monStop := true, result := some (-1) }


/-! ## Claims -/

/-- Helper: a reader loop whose flag is never set returns the child's exit
code and logs every line. -/
theorem runLoop_flag_false (flag : Nat → Bool) (hf : ∀ i, flag i = false) :
    ∀ (i : Nat) (lines : List String) (exitCode : Int),
      runLoop flag i lines exitCode = (exitCode, lines) := by
  intro i lines
  induction lines generalizing i with
  | nil => intro e; simp [runLoop, hf i]
  | cons l rest ih => intro e; simp [runLoop, hf i, ih (i + 1)]

/-- C3: for a root containing exactly `a.rar`, `a.part1.rar`,
`a.part2.rar`, `b.7z.001`, `b.7z.002`, discovery returns exactly
`a.rar`, `a.part1.rar`, `b.7z.001` in traversal order, and the non-first
fragments are never yielded. -/
theorem c3_gather_archives_end_to_end :
    gather_archives [["a.rar", "a.part1.rar", "a.part2.rar", "b.7z.001", "b.7z.002"]] =
        ["a.rar", "a.part1.rar", "b.7z.001"] ∧
      "a.part2.rar" ∉
        gather_archives [["a.rar", "a.part1.rar", "a.part2.rar", "b.7z.001", "b.7z.002"]] ∧
      "b.7z.002" ∉
        gather_archives [["a.rar", "a.part1.rar", "a.part2.rar", "b.7z.001", "b.7z.002"]] := by
  decide

/-- C10: `get_all_multipart_siblings` always returns a list containing the
input path itself, multipart or not, so source deletion always reaches the
original archive file. -/
theorem c10_siblings_contain_self (dirFiles : List String) (name : String) :
    name ∈ get_all_multipart_siblings dirFiles name := by
  unfold get_all_multipart_siblings
  by_cases h : name ∈ multipartSiblingsRaw dirFiles name
  · simp [h]
  · simp [h]

/-- C2 (counterexample): on `教程【解压密码：abc123】.rar` password inference
does not return `"abc123"`. -/
theorem c2_password_counterexample :
    extract_pwd_from_text "教程【解压密码：abc123】.rar" ≠ some "abc123" ∧
      (infer_password (ArcCtx.mk "教程【解压密码：abc123】.rar" "downloads" "k" []) []).1 ≠
        some "abc123" := by
  decide

/-- C2 (amended): on `教程【解压密码：abc123】.rar` inference returns exactly
`"abc123】.rar"`: the 密码-phrase prefix pattern matches first and its
`(.+)` capture runs greedily to the end of the line, including the closing
bracket and the extension; the bracketed-marker pattern never matches this
name at all (no marker from its alternation follows the `【`). -/
theorem c2_password_amended :
    extract_pwd_from_text "教程【解压密码：abc123】.rar" = some "abc123】.rar" ∧
      (infer_password (ArcCtx.mk "教程【解压密码：abc123】.rar" "downloads" "k" []) []).1 =
        some "abc123】.rar" ∧
      searchAt bracketReAt "教程【解压密码：abc123】.rar".toList = none := by
  decide

/-- C4: in the pretest gate, an inconclusive engine result (cancelled `-1`,
tool missing `9001`, execution error `9002`) never skips the archive — the
orchestrator proceeds to extraction; the archive is skipped only when both
tests conclusively fail, and a conclusive failure is exactly a result code
other than `0` and the three distinguished codes. -/
theorem c4_pretest_inconclusive (crossTry hasSecond : Bool) (rc1 rc2 : Int) :
    (testResult rc1 = none → pretestProceeds crossTry hasSecond rc1 rc2 = true) ∧
      (testResult rc2 = none → pretestProceeds crossTry hasSecond rc1 rc2 = true) ∧
      (pretestProceeds crossTry hasSecond rc1 rc2 = false →
        testResult rc1 = some false ∧ testResult rc2 = some false) ∧
      (testResult rc1 = some false ↔
        rc1 ≠ 0 ∧ rc1 ≠ -1 ∧ rc1 ≠ 9001 ∧ rc1 ≠ 9002) := by
  unfold pretestProceeds testResult
  split_ifs <;> simp_all <;> tauto

/-- C4 witness: a cancelled primary test (`-1`) proceeds to extraction. -/
theorem c4_pretest_inconclusive_witness :
    pretestProceeds true true (-1) 5 = true :=
  (c4_pretest_inconclusive true true (-1) 5).1 (by decide)

/-- C7: `run_cmd` maps every launch outcome to a result code: `9001` when
the executable cannot be found, `9002` (with the exception text logged) on
any other launch failure, and the child's real exit code (with every line
logged) when the child runs to completion uncancelled. -/
theorem c7_runCmd_total (flag : Nat → Bool) (lr : LaunchResult) :
    (lr = .fileNotFound → runCmd flag lr = (9001, [])) ∧
      (∀ msg, lr = .otherError msg →
        (runCmd flag lr).1 = 9002 ∧ ("!! 执行出错: " ++ msg) ∈ (runCmd flag lr).2) ∧
      (∀ lines exitCode, lr = .ok lines exitCode → (∀ i, flag i = false) →
        runCmd flag lr = (exitCode, lines)) := by
  refine ⟨fun h => by subst h; rfl, fun msg h => by subst h; simp [runCmd],
    fun lines exitCode h hf => ?_⟩
  subst h
  exact runLoop_flag_false flag hf 0 lines exitCode

/-- C7 witness: a found, uncancelled child's exit code is returned as-is. -/
theorem c7_runCmd_total_witness :
    runCmd (fun _ => false) (.ok ["line"] 3) = (3, ["line"]) :=
  (c7_runCmd_total (fun _ => false) (.ok ["line"] 3)).2.2 ["line"] 3 rfl (fun _ => rfl)

/-- C9: password inference is idempotent: with the same archive context,
a second call returns the same result, reads zero hint files, and leaves
the cache unchanged (the sibling-directory outcome, including a definitive
`none`, is cached by resolved directory path on the first call). -/
theorem c9_infer_password_idempotent (a : ArcCtx) (c0 : List (String × Option String)) :
    (infer_password a (infer_password a c0).2.1).1 = (infer_password a c0).1 ∧
      (infer_password a (infer_password a c0).2.1).2.2 = 0 ∧
      (infer_password a (infer_password a c0).2.1).2.1 = (infer_password a c0).2.1 := by
  unfold infer_password
  by_cases h1 : pyTruthy (extract_pwd_from_text a.arcName) = true
  · simp [h1]
  · simp only [Bool.not_eq_true] at h1
    by_cases h2 : pyTruthy (extract_pwd_from_text (pathStem a.arcName)) = true
    · simp [h1, h2]
    · simp only [Bool.not_eq_true] at h2
      by_cases h3 : pyTruthy (extract_pwd_from_text a.parentName) = true
      · simp [h1, h2, h3]
      · simp only [Bool.not_eq_true] at h3
        cases hc : cacheFind c0 a.parentKey with
        | some v => simp [h1, h2, h3, hc]
        | none => simp [h1, h2, h3, hc, cacheFind]

/-- C5 (counterexample): with a password present, the Bandizip extract
command built by the code differs from the spec's Engine A form — the code
inserts `-p:<password>` at index 2 (right after `x`), while the contract
places it between `-o:<outdir>` and the archive. -/
theorem c5_extract_cmd_counterexample :
    bandizip_cmd "bz" "a.rar" "out" (some "pw") "skip" =
        some ["bz", "x", "-p:pw", "-cp:65001", "-aos", "-o:out", "a.rar"] ∧
      specEngineACmd "bz" "a.rar" "out" (some "pw") "skip" =
        some ["bz", "x", "-cp:65001", "-aos", "-o:out", "-p:pw", "a.rar"] ∧
      bandizip_cmd "bz" "a.rar" "out" (some "pw") "skip" ≠
        specEngineACmd "bz" "a.rar" "out" (some "pw") "skip" := by
  decide

/-- C5 (amended): for every valid overwrite policy the built commands are:
Engine A `<exe> x [-p:<password>] -cp:65001 <flag> -o:<outdir> <archive>`
(the password flag, when a truthy password exists, sits right after `x`);
Engine B exactly the spec's `<exe> x -o<outdir> <flag> -p<password-or-empty>
-y <archive>`, always carrying a `-p` flag; the policy mapping is
`skip→-aos`, `rename→-aou`, `overwrite→-aoa`. -/
theorem c5_extract_cmd_amended (exe archive outdir : String)
    (password : Option String) (policy fl : String)
    (h : overwrite_flag policy = some fl) :
    bandizip_cmd exe archive outdir password policy =
        some ([exe, "x"] ++
          (match password with
           | some p => if p = "" then [] else ["-p:" ++ p]
           | none => []) ++ ["-cp:65001", fl, "-o:" ++ outdir, archive]) ∧
      sevenzip_cmd exe archive outdir password policy =
        specEngineBCmd exe archive outdir password policy ∧
      sevenzip_cmd exe archive outdir password policy =
        some [exe, "x", "-o" ++ outdir, fl, "-p" ++ password.getD "", "-y", archive] ∧
      overwrite_flag "skip" = some "-aos" ∧
      overwrite_flag "rename" = some "-aou" ∧
      overwrite_flag "overwrite" = some "-aoa" := by
  unfold bandizip_cmd sevenzip_cmd specEngineBCmd
  rw [h]
  refine ⟨?_, rfl, rfl, rfl, rfl, rfl⟩
  cases password with
  | none => rfl
  | some p =>
    by_cases hp : p = "" <;> simp [hp]

/-- C5 witness: concrete instantiation with a password. -/
theorem c5_extract_cmd_amended_witness :
    bandizip_cmd "bz" "a.rar" "o" (some "pw") "rename" =
        some (["bz", "x"] ++
          (match (some "pw" : Option String) with
           | some p => if p = "" then [] else ["-p:" ++ p]
           | none => []) ++ ["-cp:65001", "-aou", "-o:" ++ "o", "a.rar"]) ∧
      sevenzip_cmd "bz" "a.rar" "o" (some "pw") "rename" =
        specEngineBCmd "bz" "a.rar" "o" (some "pw") "rename" ∧
      sevenzip_cmd "bz" "a.rar" "o" (some "pw") "rename" =
        some ["bz", "x", "-o" ++ "o", "-aou", "-p" ++ (some "pw" : Option String).getD "",
          "-y", "a.rar"] ∧
      overwrite_flag "skip" = some "-aos" ∧
      overwrite_flag "rename" = some "-aou" ∧
      overwrite_flag "overwrite" = some "-aoa" :=
  c5_extract_cmd_amended "bz" "a.rar" "o" (some "pw") "rename" "-aou" rfl

/-- C6 (counterexample): for the first part `name.z01` with a sibling
`name.zip`, the code's family glob `name.z*` picks up `name.zip`, which
does not match the claimed `name.z\d\d` pattern. -/
theorem c6_z01_family_counterexample :
    get_all_multipart_siblings ["name.z01", "name.zip"] "name.z01" =
        ["name.z01", "name.zip"] ∧
      specZddFamilyMatch "name.z01" "name.zip" = false := by
  decide

/-- C6 (amended): for a first part whose lowered name ends in `.z01` (and
not in `.7z.001`/`.zip.001`), the computed family consists of the first
part together with exactly those sibling entries whose names start with
`base + "z"` (the glob `name.z*`) — all `name.z\d\d` volumes, but also any
other sibling matching the broader glob, such as `name.zip`. -/
theorem c6_z01_family_amended (dirFiles : List String) (name : String)
    (h7 : endsWithL (lowerStr name) ".7z.001" = false)
    (hzip : endsWithL (lowerStr name) ".zip.001" = false)
    (hz : endsWithL (lowerStr name) ".z01" = true) :
    ∀ x, x ∈ get_all_multipart_siblings dirFiles name ↔
      ((x ∈ dirFiles ∧ startsWithL x (strDropRight name 3 ++ "z") = true) ∨ x = name) := by
  intro x
  unfold get_all_multipart_siblings multipartSiblingsRaw
  simp only [h7, hzip, hz, Bool.false_eq_true, or_self, if_false, if_true]
  by_cases hm : name ∈ dirFiles.filter (fun p => startsWithL p (strDropRight name 3 ++ "z"))
  · rw [if_pos hm]
    constructor
    · intro hx
      exact Or.inl (by simpa [List.mem_filter] using hx)
    · rintro (⟨hd, hs⟩ | rfl)
      · exact List.mem_filter.mpr ⟨hd, hs⟩
      · exact hm
  · rw [if_neg hm]
    simp only [List.mem_append, List.mem_filter, List.mem_singleton]

/-- C6 witness: `name.z02` is in the family of `name.z01`. -/
theorem c6_z01_family_amended_witness :
    "name.z02" ∈ get_all_multipart_siblings ["name.z01", "name.z02"] "name.z01" :=
  (c6_z01_family_amended ["name.z01", "name.z02"] "name.z01"
      (by decide) (by decide) (by decide) "name.z02").mpr
    (Or.inl (by decide))

/-- Helper: a watchdog tick with no monitor directory either emits one
heartbeat (resetting the activity timestamp) or nothing. -/
theorem monitorTickFun_none (quiet : Nat) (phase : String) (now : Nat) (st : MonSt) :
    monitorTickFun quiet phase none now st =
      if st.lastActivity + quiet ≤ now then
        (MonSt.mk st.lastSz now, [MonEvent.heartbeat quiet phase])
      else (st, []) := rfl

/-- Helper: the poll grid splits at any point. -/
theorem tickGrid_append (a : Nat) :
    ∀ (b t0 : Nat), tickGrid t0 (a + b) = tickGrid t0 a ++ tickGrid (t0 + 2 * a) b := by
  induction a with
  | zero => intro b t0; simp [tickGrid]
  | succ a ih =>
    intro b t0
    have h1 : a + 1 + b = (a + b) + 1 := by omega
    rw [h1]
    show (t0 + 2) :: tickGrid (t0 + 2) (a + b) = _
    rw [ih b (t0 + 2)]
    have h2 : t0 + 2 + 2 * a = t0 + 2 * (a + 1) := by omega
    rw [h2]
    rfl

/-- Helper: polls that all happen before the quiet threshold elapse emit
nothing and change nothing. -/
theorem monRun_skip (quiet : Nat) (phase : String) :
    ∀ (m t0 la : Nat) (ls : Int) (rest : List (Nat × Option Int)),
      t0 + 2 * m < la + quiet →
      monRun quiet phase (MonSt.mk ls la) (quietTicks t0 m ++ rest) =
        monRun quiet phase (MonSt.mk ls la) rest := by
  intro m
  induction m with
  | zero => intro t0 la ls rest h; rfl
  | succ m ih =>
    intro t0 la ls rest h
    show monRun quiet phase (MonSt.mk ls la) ((t0 + 2, none) :: (quietTicks (t0 + 2) m ++ rest)) = _
    rw [monRun, monitorTickFun_none]
    have hlt : ¬(la + quiet ≤ t0 + 2) := by omega
    rw [if_neg hlt]
    simpa using ih (t0 + 2) la ls rest (by omega)

/-- Helper: over a silent run polled every 2 seconds, the watchdog emits
exactly one heartbeat per `2 * k` seconds of silence when
`quiet_limit = 2 * k`. -/
theorem monRun_quiet_count (k : Nat) (phase : String) (hk : 0 < k) :
    ∀ (n : Nat) (la : Nat) (ls : Int),
      monRun (2 * k) phase (MonSt.mk ls la) (quietTicks la n) =
        List.replicate (2 * n / (2 * k)) (MonEvent.heartbeat (2 * k) phase) := by
  intro n
  induction n using Nat.strong_induction_on with
  | _ n ih =>
    intro la ls
    by_cases hn : n < k
    · have h1 : monRun (2 * k) phase (MonSt.mk ls la) (quietTicks la n ++ []) =
          monRun (2 * k) phase (MonSt.mk ls la) [] :=
        monRun_skip (2 * k) phase n la la ls [] (by omega)
      rw [List.append_nil] at h1
      rw [h1]
      have h2 : 2 * n / (2 * k) = 0 := Nat.div_eq_of_lt (by omega)
      rw [h2]
      rfl
    · push_neg at hn
      have hn2 : (k - 1) + (n - (k - 1)) = n := by omega
      have hsplit : quietTicks la n =
          quietTicks la (k - 1) ++ quietTicks (la + 2 * (k - 1)) (n - (k - 1)) := by
        unfold quietTicks
        rw [← List.map_append, ← tickGrid_append (k - 1) (n - (k - 1)) la, hn2]
      rw [hsplit, monRun_skip (2 * k) phase (k - 1) la la ls
        (quietTicks (la + 2 * (k - 1)) (n - (k - 1))) (by omega)]
      have hrest : quietTicks (la + 2 * (k - 1)) (n - (k - 1)) =
          (la + 2 * k, none) :: quietTicks (la + 2 * k) (n - k) := by
        unfold quietTicks
        have h3 : n - (k - 1) = (n - k) + 1 := by omega
        rw [h3]
        show ((la + 2 * (k - 1) + 2, none) : Nat × Option Int) ::
            (tickGrid (la + 2 * (k - 1) + 2) (n - k)).map (fun t => (t, none)) = _
        have h4 : la + 2 * (k - 1) + 2 = la + 2 * k := by omega
        rw [h4]
      rw [hrest, monRun, monitorTickFun_none, if_pos (by omega : la + 2 * k ≤ la + 2 * k)]
      rw [ih (n - k) (by omega) (la + 2 * k) ls]
      have h5 : 2 * n / (2 * k) = 2 * (n - k) / (2 * k) + 1 := by
        rw [Nat.mul_div_mul_left n k (by omega),
            Nat.mul_div_mul_left (n - k) k (by omega)]
        rw [Nat.div_eq_sub_div hk hn]
      rw [h5]
      rfl

/-- C8: against a child that produces no output, the watchdog (polling
every 2 seconds from the start of the run, no monitor directory) emits
exactly one heartbeat event naming the phase per `quiet_limit` seconds of
elapsed silence — `2*n/quiet` heartbeats over `2*n` seconds, not one per
poll tick — because each emission resets the activity timestamp.  Stated
for `quiet_limit` a (positive) multiple of the 2-second poll interval, so
the cadence is not skewed by grid quantization. -/
theorem c8_heartbeat_cadence (quiet k n la : Nat) (phase : String)
    (hk : 0 < k) (hq : quiet = 2 * k) :
    monRun quiet phase (MonSt.mk (-1) la) ((la, none) :: quietTicks la n) =
      List.replicate (2 * n / quiet) (MonEvent.heartbeat quiet phase) := by
  subst hq
  rw [monRun, monitorTickFun_none, if_neg (by omega : ¬(la + 2 * k ≤ la))]
  simpa using monRun_quiet_count k phase hk n la (-1)

/-- C8 witness: with `quiet_limit = 4`, twelve seconds of silence produce
exactly three heartbeats (six polls, not six heartbeats). -/
theorem c8_heartbeat_cadence_witness :
    monRun 4 "解压" (MonSt.mk (-1) 0) ((0, none) :: quietTicks 0 6) =
      List.replicate 3 (MonEvent.heartbeat 4 "解压") :=
  c8_heartbeat_cadence 4 2 6 0 "解压" (by decide) rfl

/-- C1 (counterexample): a legal execution of `run_cmd` on a child that
produces no output, in which the cancellation flag is set and then two full
watchdog poll intervals elapse — the watchdog polls run, yet the child is
not terminated and no cancelled result is produced.  The watchdog loop
never reads `stop_flag`, so cancellation latency is not bounded by the poll
interval for a silent child: the blocked `readline` only returns when the
child outputs or exits. -/
theorem c1_cancellation_counterexample :
    Steps 30 "测试" c1s0 c1s3 ∧ c1s3.flag = true ∧ c1s3.terminated = false ∧
      c1s3.result = none ∧ c1s3.childRunning = true ∧ c1s3.now = c1s0.now + 4 := by
  refine ⟨?_, rfl, rfl, rfl, rfl, rfl⟩
  have h1 : Step 30 "测试" .setFlag c1s0 c1s1 := Step.setFlag c1s0
  have h2 : Step 30 "测试" (.monTick none) c1s1 c1s2 := Step.monTick c1s1 none rfl rfl
  have h3 : Step 30 "测试" (.monTick none) c1s2 c1s3 := Step.monTick c1s2 none rfl rfl
  exact Relation.ReflTransGen.head ⟨_, h1⟩
    (Relation.ReflTransGen.head ⟨_, h2⟩ (Relation.ReflTransGen.single ⟨_, h3⟩))

/-- C1 (amended): cancellation is cooperative at line granularity only.
Whenever the reader is at the top of its loop (which it re-reaches after
every streamed output line) with the signal set and no result yet, any
reader transition terminates the child and returns the distinguished
cancelled result `-1`; a watchdog poll never terminates the child, never
produces a result, and never observes the flag's effect — so the
cancellation latency is bounded by the output-line stream, not by the
watchdog poll interval, and is unbounded for a child that produces no
output. -/
theorem c1_cancellation_amended (quiet : Nat) (phase : String) (l : RLabel)
    (s s2 : RState) (hstep : Step quiet phase l s s2) :
    (s.flag = true → s.pc = .atHead → s.result = none → readerLabel l = true →
      s2.result = some (-1) ∧ s2.terminated = true) ∧
      (∀ sz, l = .monTick sz → s2.terminated = s.terminated ∧ s2.result = s.result ∧
        s2.flag = s.flag ∧ s2.pending = s.pending) ∧
      (l = .readLine → s2.pc = .atHead) := by
  cases hstep <;> refine ⟨?_, ?_, ?_⟩ <;> intros <;> simp_all [readerLabel]

/-- C1 witness: at a flag check with the signal set, the reader's
transition yields the cancelled result and terminates the child. -/
theorem c1_cancellation_amended_witness :
    c1w1.result = some (-1) ∧ c1w1.terminated = true :=
  (c1_cancellation_amended 30 "测试" .cancelCheck c1w0 c1w1
      (Step.cancelCheck c1w0 rfl rfl rfl)).1 rfl rfl rfl rfl
